import Mathlib

/-!
# Verification of the payload-greenhouse plugin

Shallow embedding of the Brightscout/payload-greenhouse plugin:

* the office → department → job flatten/dedupe step of the environment-variable
  jobs handler (`src/unnamed/part_001`, `greenhouseJobsHandler`);
* the cached jobs handler, apply handler and clear-cache handler of
  `src/utils/greenhouseApi.ts`;
* the debug endpoint and the `beforeChange` hook of `src/index.ts`;
* the admin dashboard widget of the two `BeforeDashboardClient` variants.

The host CMS document store (`payload.find` / `payload.create` /
`payload.delete`) is modelled as a list of documents; external HTTP calls are
modelled as environment fields describing their outcome.  JavaScript numbers
appearing as ids, counts and epoch-millisecond timestamps are modelled as
`Nat` / `Int`; JavaScript truthiness (`0`, `''`, `null`/`undefined` falsy) is
modelled explicitly by the `js*` helpers.
-/

/-! ## Greenhouse office tree (types of `src/unnamed/part_001` and `src/index.ts`) -/

/-- `{ name: string }`, the shape of `job.location`. -/
structure LocName where
  name : String
deriving DecidableEq, Repr

/-- A job node of the offices tree (`GreenhouseJob` in `src/unnamed/part_001`).
`data_compliance` and `metadata` are opaque JSON blobs never inspected by the
plugin and are omitted. -/
structure GHJob where
  absolute_url : String
  company_name : String
  content : Option String
  first_published : String
  id : Nat
  internal_job_id : Int
  location : Option LocName
  requisition_id : String
  title : String
  updated_at : String
deriving DecidableEq, Repr

/-- A department node (`GreenhouseDepartment`). -/
structure GHDepartment where
  child_ids : List Nat
  id : Nat
  jobs : List GHJob
  name : String
  parent_id : Option Nat
deriving DecidableEq, Repr

/-- An office node (`GreenhouseOffice`). -/
structure GHOffice where
  child_ids : List Nat
  departments : List GHDepartment
  id : Nat
  location : Option String
  name : String
  parent_id : Option Nat
deriving DecidableEq, Repr

/-- One `{ department, job, office }` record as pushed to `allJobs` by the
flattening loop. -/
structure JobEntry where
  department : GHDepartment
  job : GHJob
  office : GHOffice
deriving DecidableEq, Repr

/-! ## Flatten/dedupe (`src/unnamed/part_001`, lines 121-143)

The source walks offices, then departments, then jobs, in source order,
keeping a `seenJobIds` set and appending a `{ department, job, office }`
record to `allJobs` for each job id not seen before.  The membership set
`Set<number>` is modelled as a list of the inserted ids. -/

/-- State of the flattening loop: the `seenJobIds` set and the `allJobs`
accumulator. -/
structure FlattenState where
  seenJobIds : List Nat
  allJobs : List JobEntry
deriving DecidableEq

/-- Body of the innermost loop: skip the job if its id was seen, otherwise
record the id and append the entry. -/
def flattenStep (office : GHOffice) (department : GHDepartment)
    (s : FlattenState) (job : GHJob) : FlattenState :=
  if job.id ∈ s.seenJobIds then s
  else ⟨job.id :: s.seenJobIds, s.allJobs ++ [⟨department, job, office⟩]⟩

/-- The `for (const job of department.jobs)` loop. -/
def flattenDepartment (office : GHOffice) (s : FlattenState)
    (department : GHDepartment) : FlattenState :=
  department.jobs.foldl (flattenStep office department) s

/-- The `for (const department of office.departments)` loop.  The source
guards `office.departments && office.departments.length > 0`; folding over an
empty list is the identity, so the guard needs no separate case. -/
def flattenOffice (s : FlattenState) (office : GHOffice) : FlattenState :=
  office.departments.foldl (flattenDepartment office) s

/-- The full flatten/dedupe step: the `allJobs` list produced by the three
nested loops starting from an empty seen-set. -/
def flattenJobs (offices : List GHOffice) : List JobEntry :=
  (offices.foldl flattenOffice ⟨[], []⟩).allJobs

/-- All `(office, department, job)` triples of the tree in traversal order
(offices, then departments, then jobs, in source order), without
deduplication. -/
def allTriples (offices : List GHOffice) : List JobEntry :=
  (offices.map (fun o =>
    (o.departments.map (fun d => d.jobs.map (fun j => (⟨d, j, o⟩ : JobEntry)))).flatten)).flatten

/-- `flattenStep` only looks at the entry it would append. -/
def stepEntry (s : FlattenState) (e : JobEntry) : FlattenState :=
  if e.job.id ∈ s.seenJobIds then s
  else ⟨e.job.id :: s.seenJobIds, s.allJobs ++ [e]⟩

/-- First-occurrence filter: keeps an entry iff its job id is neither in
`seen` nor carried by an earlier entry of the list. -/
def firstOcc (seen : List Nat) : List JobEntry → List JobEntry
  | [] => []
  | e :: es =>
    if e.job.id ∈ seen then firstOcc seen es
    else e :: firstOcc (e.job.id :: seen) es

/-! ## JavaScript truthiness helpers -/

/-- Truthiness of an optional string (`undefined` and `''` are falsy). -/
def jsStr (s : Option String) : Bool :=
  match s with
  | some v => v != ""
  | none => false

/-- Truthiness of an optional number (`undefined`, `null` and `0` are falsy). -/
def jsNum (n : Option Int) : Bool :=
  match n with
  | some v => v != 0
  | none => false

/-- `a || b` for an optional numeric setting: `undefined` and `0` fall through
to the default. -/
def jsNatOr (a : Option Nat) (b : Nat) : Nat :=
  match a with
  | some n => if n = 0 then b else n
  | none => b

/-- `x || null` for an optional numeric id: `undefined` and `0` become `null`. -/
def jsIdOrNull (a : Option Nat) : Option Nat :=
  match a with
  | some n => if n = 0 then none else some n
  | none => none

/-! ## Base64 and slug helpers

`Buffer.from(apiKey + ':').toString('base64')` is modelled by UTF-8 encoding
the string and base64-encoding the byte list (RFC 4648, with padding). -/

/-- UTF-8 encoding of a single character, as byte values. -/
def utf8CharBytes (c : Char) : List Nat :=
  let n := c.toNat
  if n < 128 then [n]
  else if n < 2048 then [192 + n / 64, 128 + n % 64]
  else if n < 65536 then [224 + n / 4096, 128 + (n / 64) % 64, 128 + n % 64]
  else [240 + n / 262144, 128 + (n / 4096) % 64, 128 + (n / 64) % 64, 128 + n % 64]

/-- UTF-8 encoding of a string, as byte values. -/
def utf8Bytes (s : String) : List Nat :=
  (s.toList.map utf8CharBytes).flatten

/-- The base64 alphabet. -/
def base64Alphabet : List Char :=
  "ABCDEFGHIJKLMNOPQRSTUVWXYZabcdefghijklmnopqrstuvwxyz0123456789+/".toList

/-- Character for a six-bit value. -/
def b64Digit (n : Nat) : Char :=
  base64Alphabet.getD n 'A'

/-- Base64 encoding of a byte list, with `=` padding. -/
def base64Encode : List Nat → List Char
  | [] => []
  | [a] => [b64Digit (a / 4), b64Digit (a % 4 * 16), '=', '=']
  | [a, b] => [b64Digit (a / 4), b64Digit (a % 4 * 16 + b / 16), b64Digit (b % 16 * 4), '=']
  | a :: b :: c :: rest =>
    b64Digit (a / 4) :: b64Digit (a % 4 * 16 + b / 16) ::
      b64Digit (b % 16 * 4 + c / 64) :: b64Digit (c % 64) :: base64Encode rest

/-- `Buffer.from(s).toString('base64')`. -/
def base64OfString (s : String) : String :=
  String.mk (base64Encode (utf8Bytes s))

/-- Collapse consecutive dashes into one, so that replacing every non-slug
character by a dash yields the effect of the global replacement of maximal
`[^a-z0-9]+` runs. -/
def collapseDashes : List Char → List Char
  | [] => []
  | '-' :: '-' :: rest => collapseDashes ('-' :: rest)
  | c :: rest => c :: collapseDashes rest
termination_by l => l.length
decreasing_by
  all_goals simp [List.length_cons]

/-- Is the character kept by the slug regex `[^a-z0-9]`? -/
def isSlugChar (c : Char) : Bool :=
  ('a' ≤ c && c ≤ 'z') || ('0' ≤ c && c ≤ '9')

/-- `title.toLowerCase().replace(/[^a-z0-9]+/g, '-')`, with the ASCII
lower-casing of `Char.toLower` standing in for the JavaScript one. -/
def slugify (s : String) : String :=
  String.mk (collapseDashes ((s.toList.map Char.toLower).map
    (fun c => if isSlugChar c then c else '-')))

/-! ## `src/utils/greenhouseApi.ts`: data model -/

/-- The `greenhouse-settings` document (`GreenhouseSettings`). -/
structure GHSettingsDoc where
  apiKey : Option String
  cacheExpiryTime : Option Nat
  urlToken : Option String
deriving DecidableEq, Repr

/-- `{ id: number; name: string }`, element of `departments` / `offices` on a
list-endpoint job. -/
structure NamedRef where
  id : Nat
  name : String
deriving DecidableEq, Repr

/-- A job of the `GET /boards/{token}/jobs` list endpoint (`GreenhouseJob` in
`src/utils/greenhouseApi.ts`). -/
structure GHListJob where
  content : String
  departments : Option (List NamedRef)
  id : Nat
  location : Option LocName
  offices : Option (List NamedRef)
  title : String
deriving DecidableEq, Repr

/-- A job-details response (`GreenhouseJobDetails`); the opaque `questions`
array is modelled as a list of strings. -/
structure GHJobDetails where
  questions : Option (List String)
deriving DecidableEq, Repr

/-- A cached `greenhouse-jobs` document, with the fields written by
`payload.create` in the jobs handler.  `id` is the store's document id;
`updatedAt` is an epoch-millisecond timestamp. -/
structure CachedDoc where
  id : Nat
  jobId : Nat
  slug : String
  content : String
  department : String
  departmentId : Option Nat
  location : String
  office : String
  officeId : Option Nat
  questions : List String
  title : String
  updatedAt : Int
deriving DecidableEq, Repr

/-- Outcome of the `GET /boards/{token}/jobs` fetch: a non-2xx status, or a
JSON body whose `jobs` field may be absent (`greenhouseData.jobs || []`). -/
inductive ListFetch
  | err (status : Nat)
  | ok (jobsField : Option (List GHListJob))
deriving DecidableEq, Repr

/-- Outcome of one `GET /boards/{token}/jobs/{id}` detail fetch: success, a
non-2xx response, or a thrown network error. -/
inductive DetailFetch
  | ok (details : GHJobDetails)
  | httpErr (status : Nat)
  | thrown
deriving DecidableEq, Repr

/-- Everything outside the document store that the jobs handler reads: the
`greenhouse-settings` document (first doc of the settings collection), the
plugin option fallback for the expiry, the clock, the request URL, and the
behaviour of the two external fetches. -/
structure JobsEnv where
  settings : Option GHSettingsDoc
  pluginCacheExpiryTime : Option Nat
  now : Int
  url : List Char
  listFetch : ListFetch
  detailFetch : Nat → DetailFetch

/-- Body of the jobs handler's JSON response. -/
inductive JobsBody
  | errorMsg (msg : String)
  | cachedDocs (docs : List CachedDoc)
  | processed (docs : List CachedDoc)
deriving DecidableEq, Repr

/-- Result of one jobs-handler invocation: HTTP status, response body, the
document store afterwards, the next fresh document id, and whether the
external list endpoint was fetched. -/
structure JobsOut where
  status : Nat
  body : JobsBody
  store : List CachedDoc
  nextId : Nat
  calledListApi : Bool
deriving DecidableEq, Repr

/-! ## `src/utils/greenhouseApi.ts`: the jobs handler (`greenhouseJobsHandler`)

The store is a list of `CachedDoc`; `payload.find({ limit: 1000 })` returns
its first 1000 documents in store order, `payload.delete({ id })` removes the
documents with that id, and `payload.create` appends a document with a fresh
id and returns it. -/

/-- `payload.delete({ id: job.id })` for every document of `docs`. -/
def deleteAll (store : List CachedDoc) (docs : List CachedDoc) : List CachedDoc :=
  docs.foldl (fun st d => st.filter (fun x => x.id != d.id)) store

/-- `cacheTime = settings.cacheExpiryTime || pluginOptions.cacheExpiryTime || 3600`. -/
def cacheTimeOf (env : JobsEnv) (s : GHSettingsDoc) : Nat :=
  jsNatOr s.cacheExpiryTime (jsNatOr env.pluginCacheExpiryTime 3600)

/-- `lastUpdated`: the `updatedAt` of `docs[0]` of the cache query, `0` when
the query returned no documents. -/
def cacheLastUpdated (docs : List CachedDoc) : Int :=
  match docs.head? with
  | some d => d.updatedAt
  | none => 0

/-- `url.includes('refresh=true')`. -/
def hasRefreshTrue (url : List Char) : Bool :=
  decide ("refresh=true".toList <:+: url)

/-- The document created for one successful job: the field mapping of the
`payload.create` call (snake-case source fields to the collection's fields,
`departments[0]` / `offices[0]` flattened, `|| null` on the ids, `|| ''` on
the names, `questions || []`).  The creation-time `updatedAt` comes from the
collection's `beforeChange` hook setting it to the current time. -/
def mkCachedDoc (docId : Nat) (now : Int) (job : GHListJob) (details : GHJobDetails) :
    CachedDoc where
  id := docId
  jobId := job.id
  slug := slugify job.title
  content := job.content
  department := (((job.departments.getD []).head?).map NamedRef.name).getD ""
  departmentId := jsIdOrNull (((job.departments.getD []).head?).map NamedRef.id)
  location := (job.location.map LocName.name).getD ""
  office := (((job.offices.getD []).head?).map NamedRef.name).getD ""
  officeId := jsIdOrNull (((job.offices.getD []).head?).map NamedRef.id)
  questions := details.questions.getD []
  title := job.title
  updatedAt := now

/-- The detail fan-out (`jobs.map` + `Promise.all`): a successful fetch
yields `{ details, job }`, a non-2xx response or a thrown error yields
`null`. -/
def detailResults (env : JobsEnv) (jobs : List GHListJob) :
    List (Option (GHJobDetails × GHListJob)) :=
  jobs.map (fun job =>
    match env.detailFetch job.id with
    | DetailFetch.ok details => some (details, job)
    | DetailFetch.httpErr _ => none
    | DetailFetch.thrown => none)

/-- One iteration of the create loop: a `null` result is skipped
(`continue`), every other result is stored with a fresh document id and
pushed to `processedJobs`. -/
def createStep (now : Int) (acc : List CachedDoc × Nat × List CachedDoc)
    (r : Option (GHJobDetails × GHListJob)) : List CachedDoc × Nat × List CachedDoc :=
  match r with
  | none => acc
  | some (details, job) =>
    let doc := mkCachedDoc acc.2.1 now job details
    (acc.1 ++ [doc], acc.2.1 + 1, acc.2.2 ++ [doc])

/-- The create loop over the joined detail results.  Returns (store, next
fresh id, `processedJobs`). -/
def createJobs (now : Int) (results : List (Option (GHJobDetails × GHListJob)))
    (store : List CachedDoc) (nextId : Nat) : List CachedDoc × Nat × List CachedDoc :=
  results.foldl (createStep now) (store, nextId, [])

/-- The jobs of a successful list fetch (`greenhouseData.jobs || []`); `[]`
when the fetch failed (that branch returns before reading them). -/
def listJobsOf (env : JobsEnv) : List GHListJob :=
  match env.listFetch with
  | ListFetch.ok jobsField => jobsField.getD []
  | ListFetch.err _ => []

/-- The cache-replace part of the handler, after the cache check: delete the
queried documents, fan out the detail fetches, create the surviving jobs.
Returns (store, next fresh id, `processedJobs`). -/
def syncOutcome (env : JobsEnv) (store : List CachedDoc) (nextId : Nat) :
    List CachedDoc × Nat × List CachedDoc :=
  createJobs env.now (detailResults env (listJobsOf env))
    (deleteAll store (store.take 1000)) nextId

/-- `greenhouseJobsHandler` of `src/utils/greenhouseApi.ts`: settings check,
cache check (`docs[0]` age against the expiry, `refresh=true` override),
then fetch-delete-refill. -/
def greenhouseJobsHandler (env : JobsEnv) (store : List CachedDoc) (nextId : Nat) : JobsOut :=
  match env.settings with
  | none => ⟨400, JobsBody.errorMsg "Greenhouse URL token is required.", store, nextId, false⟩
  | some s =>
    if jsStr s.urlToken then
      let cachedDocs := store.take 1000
      let cacheExpired : Bool :=
        decide (env.now - cacheLastUpdated cachedDocs > (cacheTimeOf env s : Int) * 1000)
      let forceRefresh := hasRefreshTrue env.url
      if decide (cachedDocs.length > 0) && !cacheExpired && !forceRefresh then
        ⟨200, JobsBody.cachedDocs cachedDocs, store, nextId, false⟩
      else
        match env.listFetch with
        | ListFetch.err status =>
          ⟨status, JobsBody.errorMsg "Greenhouse API error", store, nextId, true⟩
        | ListFetch.ok _ =>
          let res := syncOutcome env store nextId
          ⟨200, JobsBody.processed res.2.2, res.1, res.2.1, true⟩
    else ⟨400, JobsBody.errorMsg "Greenhouse URL token is required.", store, nextId, false⟩

/-- The spec's notion of cache age baseline: the newest `updatedAt` among the
cached documents (`0` when there are none).  Written from the spec's words
(`age = now − newest cached updatedAt`), to be compared with the source's
`cacheLastUpdated`. -/
def specNewestUpdatedAt (docs : List CachedDoc) : Int :=
  (docs.map CachedDoc.updatedAt).foldr max 0

/-! ## `src/utils/greenhouseApi.ts`: the clear-cache handler, both variants -/

/-- Result of a clear-cache invocation: HTTP status, the reported
`jobsRemoved`, and the store afterwards. -/
structure ClearOut where
  status : Nat
  jobsRemoved : Nat
  store : List CachedDoc
deriving DecidableEq, Repr

/-- `greenhouseClearCacheHandler` of `src/utils/greenhouseApi.ts`: query at
most 1000 cached documents, delete each of them, report their count. -/
def greenhouseClearCacheHandler (store : List CachedDoc) : ClearOut :=
  let cachedDocs := store.take 1000
  ⟨200, cachedDocs.length, deleteAll store cachedDocs⟩

/-- Result of the environment-variable clear-cache variant, which touches no
store. -/
structure EnvClearOut where
  status : Nat
  jobsRemoved : Nat
deriving DecidableEq, Repr

/-- `greenhouseClearCacheHandler` of `src/unnamed/part_001`: a no-op that
always reports `jobsRemoved: 0`. -/
def greenhouseClearCacheHandlerEnv : EnvClearOut :=
  ⟨200, 0⟩

/-! ## `src/utils/greenhouseApi.ts`: the apply handler (`greenhouseApplyHandler`) -/

/-- `getGreenhouseHeaders`: JSON content type always, plus a `Basic` HTTP
authorization header built from `base64(apiKey + ':')` when an API key is
given. -/
def getGreenhouseHeaders (apiKey : Option String) : List (String × String) :=
  let headers := [("Content-Type", "application/json")]
  if jsStr apiKey then
    headers ++ [("Authorization", "Basic " ++ base64OfString (apiKey.getD "" ++ ":"))]
  else headers

/-- The parsed request body: `req.json()` either throws or yields an object
whose `jobId` and `formData` fields may be absent.  `formData` is an opaque
JSON value modelled as a string. -/
inductive ApplyBody
  | parseError
  | okBody (jobId : Option Int) (formData : Option String)
deriving DecidableEq, Repr

/-- Outcome of the `POST /v1/applications` fetch. -/
inductive PostResult
  | thrown
  | resp (ok : Bool) (status : Nat)
deriving DecidableEq, Repr

/-- Environment of the apply handler. -/
structure ApplyEnv where
  settings : Option GHSettingsDoc
  body : ApplyBody
  postResult : PostResult
deriving Repr

/-- Result of one apply-handler invocation: HTTP status, whether the write
API was contacted, and the headers sent to it. -/
structure ApplyOut where
  status : Nat
  calledApi : Bool
  sentHeaders : Option (List (String × String))
deriving DecidableEq, Repr

/-- `greenhouseApplyHandler` of `src/utils/greenhouseApi.ts`: settings/API-key
check (400), body parse (a throw is caught as 500), `jobId`/`formData`
presence check (400), then the authenticated POST, proxying the upstream
status on a non-2xx response and mapping a thrown fetch to 500. -/
def greenhouseApplyHandler (env : ApplyEnv) : ApplyOut :=
  match env.settings with
  | none => ⟨400, false, none⟩
  | some s =>
    if jsStr s.apiKey then
      match env.body with
      | ApplyBody.parseError => ⟨500, false, none⟩
      | ApplyBody.okBody jobId formData =>
        if !jsNum jobId || !jsStr formData then ⟨400, false, none⟩
        else
          let headers := getGreenhouseHeaders s.apiKey
          match env.postResult with
          | PostResult.thrown => ⟨500, true, some headers⟩
          | PostResult.resp ok status =>
            if ok then ⟨200, true, some headers⟩
            else ⟨status, true, some headers⟩
    else ⟨400, false, none⟩

/-! ## `src/index.ts`: the debug endpoint (`GET /greenhouse/debug`, lines 498-597)

After a successful offices fetch the endpoint walks the tree with the same
three nested loops as the flattening step but with **no** `seenJobIds` set:
it pushes `job.id` to `availableJobIds` and a metadata record to `jobDetails`
for every traversal occurrence, then sorts both ascending (`(a, b) => a - b`
and `(a, b) => a.id - b.id`; `Array.prototype.sort` is stable, modelled by
`List.insertionSort`). -/

/-- One record of the debug endpoint's `jobDetails`. -/
structure DebugJobDetail where
  department : String
  id : Nat
  office : String
  title : String
deriving DecidableEq, Repr

/-- The `availableJobIds` list of the debug endpoint's response body: every
traversal occurrence of a job id, sorted ascending. -/
def debugAvailableJobIds (offices : List GHOffice) : List Nat :=
  List.insertionSort (fun a b => a ≤ b) ((allTriples offices).map (fun e => e.job.id))

/-- The `jobDetails` list of the debug endpoint's response body: one metadata
record per traversal occurrence, sorted ascending by id. -/
def debugJobDetails (offices : List GHOffice) : List DebugJobDetail :=
  List.insertionSort (fun a b => a.id ≤ b.id)
    ((allTriples offices).map (fun e =>
      DebugJobDetail.mk e.department.name e.job.id e.office.name e.job.title))

/-- The `totalJobs` field: the length of `availableJobIds`. -/
def debugTotalJobs (offices : List GHOffice) : Nat :=
  ((allTriples offices).map (fun e => e.job.id)).length

/-! ## Admin dashboard widget (`BeforeDashboardClient`, the two variants of
`src/unnamed/part_000`) -/

/-- A job as given to the widget by `BeforeDashboardServer`; the
`new Date(job.updatedAt).getTime()` epoch value is carried directly. -/
structure DashJob where
  id : String
  title : String
  department : String
  location : String
  office : String
  updatedAtMs : Int
deriving DecidableEq, Repr

/-- The comparator `(a, b) => b.updatedAt - a.updatedAt` as a relation:
`a` sorts no later than `b` when `a` is at least as recent. -/
def jobLatest (a b : DashJob) : Prop :=
  b.updatedAtMs ≤ a.updatedAtMs

instance : DecidableRel jobLatest :=
  fun a b => inferInstanceAs (Decidable (b.updatedAtMs ≤ a.updatedAtMs))

instance : IsTotal DashJob jobLatest :=
  ⟨fun a b => (le_total b.updatedAtMs a.updatedAtMs).imp (fun h => h) (fun h => h)⟩

instance : IsTrans DashJob jobLatest :=
  ⟨fun _ _ _ hab hbc => le_trans hbc hab⟩

/-- The "Recent Jobs" table rows of the first widget variant
(`src/unnamed/part_000`, line 117): `jobs.slice(0, 10)`, no sorting. -/
def recentJobsRowsV1 (jobs : List DashJob) : List DashJob :=
  jobs.take 10

/-- The "All Available Jobs" table rows of the second widget variant
(`src/unnamed/part_000`, line 310): `initialJobs.sort((a, b) =>
new Date(b.updatedAt).getTime() - new Date(a.updatedAt).getTime())`, all rows,
no slice; the stable `Array.prototype.sort` is modelled by
`List.insertionSort`. -/
def allJobsRowsV2 (jobs : List DashJob) : List DashJob :=
  List.insertionSort jobLatest jobs

/-! ## `src/index.ts`: the `beforeChange` hook of the `greenhouse-jobs`
collection (lines 279-408)

Documents are JSON objects modelled as ordered association lists of string
keys and primitive values; an absent key models `undefined`. -/

/-- A primitive JSON value of a collection document. -/
inductive JVal
  | str (s : String)
  | num (n : Int)
deriving DecidableEq, Repr

/-- A collection document / the `data` object of a hook invocation. -/
abbrev JObj := List (String × JVal)

/-- JavaScript truthiness of a possibly-absent document value. -/
def jvTruthy : Option JVal → Bool
  | some (JVal.str s) => s != ""
  | some (JVal.num n) => n != 0
  | none => false

/-- `a || b` on possibly-absent document values. -/
def jsOrVal (a b : Option JVal) : Option JVal :=
  if jvTruthy a then a else b

/-- JavaScript property assignment `obj[k] = v`: replace the value of an
existing key in place, append the key otherwise. -/
def setKey (obj : JObj) (k : String) (v : JVal) : JObj :=
  if (obj.lookup k).isSome then
    obj.map (fun p => if p.1 = k then (p.1, v) else p)
  else obj ++ [(k, v)]

/-- `obj[k] = v` only when `v` is defined (an absent right-hand side leaves
the document unchanged in this model; see `populateData`). -/
def setKeyOpt (obj : JObj) (k : String) (v : Option JVal) : JObj :=
  match v with
  | some w => setKey obj k w
  | none => obj

/-- The leading decimal digits of a character list as a number, `none` when
there are none. -/
def leadDigits (cs : List Char) : Option Nat :=
  let ds := cs.takeWhile Char.isDigit
  if ds.isEmpty then none
  else some (ds.foldl (fun acc c => acc * 10 + (c.toNat - 48)) 0)

/-- `parseInt(s, 10)`: skip leading spaces, optional sign, leading digits;
`none` models `NaN`. -/
def parseIntJs (s : String) : Option Int :=
  let cs := s.toList.dropWhile (fun c => c = ' ')
  match cs with
  | '-' :: rest => (leadDigits rest).map (fun n => -(n : Int))
  | '+' :: rest => (leadDigits rest).map (fun n => (n : Int))
  | _ => (leadDigits cs).map (fun n => (n : Int))

/-- The JSON of a `GET /boards/{token}/jobs/{id}` response as read by the
hook; every field may be absent. -/
structure GHJobDetailsFull where
  title : Option String
  content : Option String
  absolute_url : Option String
  company_name : Option String
  requisition_id : Option String
  internal_job_id : Option Int
  location : Option LocName
  first_published : Option String
deriving DecidableEq, Repr

/-- Outcome of the hook's job-details fetch: success, or a non-2xx response
with its status and body text. -/
inductive JobFetchResult
  | ok (details : GHJobDetailsFull)
  | err (status : Nat) (bodyText : String)
deriving DecidableEq, Repr

/-- Outcome of the hook's offices fetch. -/
inductive OfficesFetchResult
  | ok (officesField : Option (List GHOffice))
  | err (status : Nat)
deriving DecidableEq, Repr

/-- Environment of one hook invocation: the resolved URL token
(`pluginOptions.urlToken || process.env.GREENHOUSE_URL_TOKEN`), the two
external fetches, and the current time as an ISO string. -/
structure HookEnv where
  urlToken : Option String
  jobFetch : Int → JobFetchResult
  officesFetch : OfficesFetchResult
  nowIso : String

/-- The hook operation (`operation === 'create' | 'update'`). -/
inductive Op
  | create
  | update
deriving DecidableEq, Repr

/-- The errors the hook can throw. -/
inductive HookError
  | tokenMissing
  | invalidJobId
  | jobNotFound (n : Int)
  | unauthorized
  | apiError (status : Nat) (text : String)
deriving DecidableEq, Repr

/-- The field population of the hook's successful enrichment branch
(lines 337-371): each `data.x = a || b || c` chain in source order, with the
`new Date(first_published)` value modelled as the raw date string. -/
def populateData (data : JObj) (jd : GHJobDetailsFull) (fc : Option JobEntry)
    (n : Int) : JObj :=
  let d1 := setKeyOpt data "title"
    (jsOrVal (jd.title.map JVal.str)
      (jsOrVal ((fc.map (fun e => e.job.title)).map JVal.str) (data.lookup "title")))
  let d2 := setKeyOpt d1 "content"
    (jsOrVal (jd.content.map JVal.str)
      (jsOrVal ((fc.bind (fun e => e.job.content)).map JVal.str)
        (jsOrVal (data.lookup "content") (some (JVal.str "")))))
  let d3 := setKeyOpt d2 "absoluteUrl"
    (jsOrVal (jd.absolute_url.map JVal.str)
      (jsOrVal ((fc.map (fun e => e.job.absolute_url)).map JVal.str)
        (data.lookup "absoluteUrl")))
  let d4 := setKeyOpt d3 "companyName"
    (jsOrVal (jd.company_name.map JVal.str)
      (jsOrVal ((fc.map (fun e => e.job.company_name)).map JVal.str)
        (data.lookup "companyName")))
  let d5 := setKeyOpt d4 "requisitionId"
    (jsOrVal (jd.requisition_id.map JVal.str)
      (jsOrVal ((fc.map (fun e => e.job.requisition_id)).map JVal.str)
        (data.lookup "requisitionId")))
  let d6 := setKeyOpt d5 "internalJobId"
    (jsOrVal (jd.internal_job_id.map JVal.num)
      (jsOrVal ((fc.map (fun e => e.job.internal_job_id)).map JVal.num)
        (data.lookup "internalJobId")))
  let d7 := setKeyOpt d6 "location"
    (jsOrVal ((jd.location.map LocName.name).map JVal.str)
      (jsOrVal ((fc.bind (fun e => e.job.location)).map (fun l => JVal.str l.name))
        (jsOrVal (data.lookup "location") (some (JVal.str "")))))
  let pubSrc := jsOrVal (jd.first_published.map JVal.str)
    ((fc.map (fun e => e.job.first_published)).map JVal.str)
  let d8 := setKeyOpt d7 "publishedDate"
    (if jvTruthy pubSrc then pubSrc else data.lookup "publishedDate")
  let d9 :=
    match fc with
    | some e => setKey (setKey d8 "department" (JVal.str e.department.name))
        "office" (JVal.str e.office.name)
    | none => d8
  setKey d9 "jobId" (JVal.num n)

/-- The enrichment branch of the hook (lines 281-391): when a truthy
`data.jobId` is created or changed, validate the token, parse the id, fetch
the job details (throwing on a non-2xx response by its status), fetch the
offices tree, locate the job's first office/department context in traversal
order and populate the data fields. -/
def enrichStep (env : HookEnv) (operation : Op) (originalDoc : Option JObj)
    (data : JObj) : Except HookError JObj :=
  let dataJobId := data.lookup "jobId"
  let changed :=
    match operation with
    | Op.create => true
    | Op.update =>
      match originalDoc with
      | some od => decide (dataJobId ≠ od.lookup "jobId")
      | none => false
  if jvTruthy dataJobId && changed then
    if jsStr env.urlToken then
      let jobIdNum : Option Int :=
        match dataJobId with
        | some (JVal.str s) => parseIntJs s
        | some (JVal.num n) => some n
        | none => none
      match jobIdNum with
      | none => Except.error HookError.invalidJobId
      | some n =>
        if n ≤ 0 then Except.error HookError.invalidJobId
        else
          match env.jobFetch n with
          | JobFetchResult.err status text =>
            if status = 404 then Except.error (HookError.jobNotFound n)
            else if status = 401 then Except.error HookError.unauthorized
            else Except.error (HookError.apiError status text)
          | JobFetchResult.ok jd =>
            match env.officesFetch with
            | OfficesFetchResult.err _ => Except.ok data
            | OfficesFetchResult.ok officesField =>
              let offices := officesField.getD []
              let fc := (allTriples offices).find? (fun e => (e.job.id : Int) == n)
              Except.ok (populateData data jd fc n)
    else Except.error HookError.tokenMissing
  else Except.ok data

/-- The preserve loop (lines 393-401): on an update with an original
document, every key of `data` whose value is defined in `originalDoc` is
overwritten with the original value. -/
def preserveOriginal (originalDoc data : JObj) : JObj :=
  data.map (fun p =>
    match originalDoc.lookup p.1 with
    | some v => (p.1, v)
    | none => p)

/-- The whole `beforeChange` hook: enrichment, preserve-on-update, then
`data.updatedAt = new Date().toISOString()`. -/
def beforeChangeHook (env : HookEnv) (operation : Op) (originalDoc : Option JObj)
    (data : JObj) : Except HookError JObj := do
  let data1 ← enrichStep env operation originalDoc data
  let data2 :=
    match operation, originalDoc with
    | Op.update, some od => preserveOriginal od data1
    | _, _ => data1
  pure (setKey data2 "updatedAt" (JVal.str env.nowIso))

/-! ## Specification-side helpers and concrete instances used by the claims -/

/-- Did the detail fetch of this job succeed? -/
def detailOk (env : JobsEnv) (job : GHListJob) : Bool :=
  match env.detailFetch job.id with
  | DetailFetch.ok _ => true
  | DetailFetch.httpErr _ => false
  | DetailFetch.thrown => false

/-- The documents the create loop appends, with their fresh ids, written as a
direct recursion for reasoning about `createJobs`. -/
def createdList (now : Int) : Nat → List (Option (GHJobDetails × GHListJob)) → List CachedDoc
  | _, [] => []
  | nid, none :: rest => createdList now nid rest
  | nid, some (details, job) :: rest =>
    mkCachedDoc nid now job details :: createdList now (nid + 1) rest

/-- A job node of the offices tree with the given id and defaults elsewhere. -/
def sampleJob (i : Nat) : GHJob :=
  ⟨"", "", none, "", i, 0, none, "", "job", ""⟩

/-- A department node with the given id and jobs. -/
def sampleDept (i : Nat) (jobs : List GHJob) : GHDepartment :=
  ⟨[], i, jobs, "dept", none⟩

/-- An office node with the given id and departments. -/
def sampleOffice (i : Nat) (ds : List GHDepartment) : GHOffice :=
  ⟨[], ds, i, none, "office", none⟩

/-- An office tree in which two different offices both list job id 42 under
different departments. -/
def c7Offices : List GHOffice :=
  [sampleOffice 1 [sampleDept 11 [sampleJob 42]],
   sampleOffice 2 [sampleDept 22 [sampleJob 42]]]

/-- A cached document with the given store id, job id and timestamp. -/
def simpleDoc (docId jobId : Nat) (ts : Int) : CachedDoc :=
  ⟨docId, jobId, "", "", "", none, "", "", none, [], "", ts⟩

/-- A store whose first document is stale but whose second (newest) document
is fresh. -/
def c2Store : List CachedDoc :=
  [simpleDoc 1 101 0, simpleDoc 2 102 10000000]

/-- Jobs-handler environment for the `c2Store` scenario: valid token, default
expiry (3600 s), `now` equal to the newest document's timestamp, no
`refresh=true` in the URL. -/
def c2Env : JobsEnv :=
  ⟨some ⟨none, none, some "tok"⟩, none, 10000000,
    "/api/greenhouse/jobs".toList, ListFetch.ok (some []), fun _ => DetailFetch.thrown⟩

/-- Settings document with only a URL token. -/
def tokSettings : GHSettingsDoc :=
  ⟨none, none, some "tok"⟩

/-- A one-document store whose cache is fresh at time 1000. -/
def freshStore : List CachedDoc :=
  [simpleDoc 1 101 500]

/-- Jobs-handler environment with a fresh cache and no refresh parameter. -/
def c2wEnv : JobsEnv :=
  ⟨some tokSettings, none, 1000, "/api/greenhouse/jobs".toList,
    ListFetch.ok (some []), fun _ => DetailFetch.thrown⟩

/-- Jobs-handler environment with a fresh cache and `refresh=true` in the
URL. -/
def c3wEnv : JobsEnv :=
  ⟨some tokSettings, none, 1000, "/api/greenhouse/jobs?refresh=true".toList,
    ListFetch.ok (some []), fun _ => DetailFetch.thrown⟩

/-- A list-endpoint job with the given id and defaults elsewhere. -/
def c4Job (i : Nat) : GHListJob :=
  ⟨"", none, i, none, none, "Job title"⟩

/-- Jobs-handler environment returning three jobs whose middle detail fetch
throws a network error. -/
def c4Env : JobsEnv :=
  ⟨some tokSettings, none, 0, [],
    ListFetch.ok (some [c4Job 1, c4Job 2, c4Job 3]),
    fun i => if i = 2 then DetailFetch.thrown else DetailFetch.ok ⟨none⟩⟩

/-- A store of 1001 cached documents with distinct ids. -/
def bigStore : List CachedDoc :=
  (List.range 1001).map (fun i => simpleDoc i i 0)

/-- A two-document store. -/
def twoStore : List CachedDoc :=
  [simpleDoc 1 101 0, simpleDoc 2 102 0]

/-- Apply-handler environment with no API key configured. -/
def c6NoKeyEnv : ApplyEnv :=
  ⟨some tokSettings, ApplyBody.okBody (some 5) (some "form"), PostResult.resp true 200⟩

/-- Apply-handler environment with an API key, a complete body and a
successful upstream response. -/
def c6OkEnv : ApplyEnv :=
  ⟨some ⟨some "key", none, some "tok"⟩, ApplyBody.okBody (some 5) (some "form"),
    PostResult.resp true 200⟩

/-- A dashboard job updated at time 1. -/
def c8JobA : DashJob :=
  ⟨"a", "Older", "", "", "", 1⟩

/-- A dashboard job updated at time 2. -/
def c8JobB : DashJob :=
  ⟨"b", "Newer", "", "", "", 2⟩

/-- A two-job dashboard list given oldest-first. -/
def c8Jobs : List DashJob :=
  [c8JobA, c8JobB]

/-- An eleven-job dashboard list. -/
def c8Eleven : List DashJob :=
  (List.range 11).map (fun i => ⟨toString i, "Job", "", "", "", (i : Int)⟩)

/-- Hook environment whose job-details fetch answers 404. -/
def c10Env404 : HookEnv :=
  ⟨some "tok", fun _ => JobFetchResult.err 404 "Not Found",
    OfficesFetchResult.ok (some []), "2024-01-01T00:00:00.000Z"⟩

/-- An original document with job id 1. -/
def c10Orig : JObj :=
  [("jobId", JVal.num 1), ("title", JVal.str "Original title"), ("updatedAt", JVal.str "old")]

/-- Submitted update data changing the job id to 2. -/
def c10Data : JObj :=
  [("jobId", JVal.num 2), ("title", JVal.str "Edited title")]

/-- Hook environment for the witness: fetches succeed, fixed clock. -/
def c10wEnv : HookEnv :=
  ⟨some "tok", fun _ => JobFetchResult.ok ⟨none, none, none, none, none, none, none, none⟩,
    OfficesFetchResult.ok (some []), "2024-02-02T00:00:00.000Z"⟩

/-- An original document with job id 5. -/
def c10wOrig : JObj :=
  [("jobId", JVal.num 5), ("title", JVal.str "Keep"), ("updatedAt", JVal.str "old")]

/-- Submitted update data keeping job id 5 but editing the title. -/
def c10wData : JObj :=
  [("jobId", JVal.num 5), ("title", JVal.str "Hacked")]

/-! # Theorems -/

/-! ## Flatten/dedupe: the fold over the tree equals the first-occurrence
filter of the traversal-order triples -/

/-- Two fold functions that agree pointwise fold alike. -/
theorem foldl_fun_ext {α β : Type} (f g : β → α → β) (l : List α)
    (hfg : ∀ b a, f b a = g b a) (b : β) : l.foldl f b = l.foldl g b := by
  have h : f = g := funext (fun x => funext (fun y => hfg x y))
  rw [h]

/-- The innermost loop is the entry-level fold over the department's
triples. -/
theorem flattenDepartment_foldl (o : GHOffice) (d : GHDepartment) (s : FlattenState) :
    flattenDepartment o s d =
      (d.jobs.map (fun j => (⟨d, j, o⟩ : JobEntry))).foldl stepEntry s := by
  rw [flattenDepartment, List.foldl_map]
  rfl

/-- The department loop is the entry-level fold over the office's triples. -/
theorem flattenOffice_foldl (o : GHOffice) (s : FlattenState) :
    flattenOffice s o =
      ((o.departments.map (fun d => d.jobs.map (fun j => (⟨d, j, o⟩ : JobEntry)))).flatten).foldl
        stepEntry s := by
  rw [flattenOffice, List.foldl_flatten, List.foldl_map]
  exact foldl_fun_ext _ _ o.departments (fun s' d => flattenDepartment_foldl o d s') s

/-- The office loop is the entry-level fold over all traversal-order
triples. -/
theorem foldl_flattenOffice (offices : List GHOffice) (s : FlattenState) :
    offices.foldl flattenOffice s = (allTriples offices).foldl stepEntry s := by
  rw [allTriples, List.foldl_flatten, List.foldl_map]
  exact foldl_fun_ext _ _ offices (fun s' o => flattenOffice_foldl o s') s

/-- Structure of the entry-level fold: it appends exactly the
first-occurrence entries and pushes their ids onto the seen set. -/
theorem foldl_stepEntry (l : List JobEntry) : ∀ (seen : List Nat) (acc : List JobEntry),
    l.foldl stepEntry ⟨seen, acc⟩ =
      ⟨((firstOcc seen l).map (fun e => e.job.id)).reverse ++ seen, acc ++ firstOcc seen l⟩ := by
  induction l with
  | nil => intro seen acc; simp [firstOcc]
  | cons e es ih =>
    intro seen acc
    by_cases h : e.job.id ∈ seen
    · simp [stepEntry, firstOcc, h, ih]
    · simp [stepEntry, firstOcc, h, ih]

/-- The flatten/dedupe output is the first-occurrence filter of the
traversal-order triples. -/
theorem flattenJobs_eq_firstOcc (offices : List GHOffice) :
    flattenJobs offices = firstOcc [] (allTriples offices) := by
  rw [flattenJobs, foldl_flattenOffice, foldl_stepEntry]
  simp

/-- The entries of the first-occurrence filter with a given job id: none when
the id is already seen, otherwise exactly the first traversal-order entry
carrying it. -/
theorem firstOcc_filter (l : List JobEntry) : ∀ (seen : List Nat) (j : Nat),
    (firstOcc seen l).filter (fun e => e.job.id == j) =
      if j ∈ seen then [] else (l.find? (fun e => e.job.id == j)).toList := by
  induction l with
  | nil => intro seen j; simp [firstOcc]
  | cons e es ih =>
    intro seen j
    by_cases h : e.job.id ∈ seen
    · rw [firstOcc, if_pos h, ih]
      by_cases hj : j ∈ seen
      · simp [hj]
      · have hne : (e.job.id == j) = false := by
          simp only [beq_eq_false_iff_ne]
          intro hc
          exact hj (hc ▸ h)
        simp [hj, List.find?_cons, hne]
    · rw [firstOcc, if_neg h]
      by_cases hj2 : e.job.id = j
      · have hjn : j ∉ seen := fun hc => h (hj2.symm ▸ hc)
        have hbeq : (e.job.id == j) = true := beq_iff_eq.mpr hj2
        have hmem : j ∈ e.job.id :: seen := by simp [hj2]
        rw [List.filter_cons, ih]
        simp [hbeq, hmem, hjn, List.find?]
      · have hbeq : (e.job.id == j) = false := beq_eq_false_iff_ne.mpr hj2
        rw [List.filter_cons, ih]
        have hmem2 : (j ∈ e.job.id :: seen) ↔ (j ∈ seen) := by
          constructor
          · intro hc
            rcases List.mem_cons.mp hc with h1 | h1
            · exact absurd h1.symm hj2
            · exact h1
          · intro hc
            exact List.mem_cons_of_mem _ hc
        by_cases hj : j ∈ seen
        · simp [hbeq, hj, hmem2.mpr hj]
        · have hnm : j ∉ e.job.id :: seen := fun hc => hj (hmem2.mp hc)
          simp [hbeq, hj, hnm, List.find?]

/-- C1: for every input office tree, the flatten/dedupe step yields the
first-occurrence filter of the traversal-order `(office, department, job)`
triples, and for every job identifier `j` its entries in the output are
exactly the first traversal-order occurrence of `j` (one entry when `j`
occurs in the tree, none otherwise); later duplicates are dropped. -/
theorem c1_flatten_dedupe_first_wins (offices : List GHOffice) (j : Nat) :
    flattenJobs offices = firstOcc [] (allTriples offices) ∧
    (flattenJobs offices).filter (fun e => e.job.id == j) =
      ((allTriples offices).find? (fun e => e.job.id == j)).toList := by
  refine ⟨flattenJobs_eq_firstOcc offices, ?_⟩
  rw [flattenJobs_eq_firstOcc, firstOcc_filter]
  simp

/-- C7: on the tree `c7Offices`, in which two offices list job id 42, the
debug endpoint's `availableJobIds` contains 42 twice — the endpoint does not
deduplicate, contradicting both the spec and the validate hook that claims to
use the same logic. -/
theorem c7_debug_duplicates_job_ids :
    debugAvailableJobIds c7Offices = [42, 42] ∧
    ¬ (debugAvailableJobIds c7Offices).Nodup ∧
    debugTotalJobs c7Offices = 2 := by
  refine ⟨by decide, by decide, by decide⟩

/-! ## Store deletion and creation lemmas -/

/-- Deleting a list of documents id-by-id filters out every document whose id
appears among theirs. -/
theorem deleteAll_filter (docs : List CachedDoc) : ∀ store : List CachedDoc,
    deleteAll store docs =
      store.filter (fun x => decide (x.id ∉ docs.map CachedDoc.id)) := by
  induction docs with
  | nil =>
    intro store
    simp [deleteAll]
  | cons d ds ih =>
    intro store
    have h1 : deleteAll store (d :: ds) = deleteAll (store.filter (fun x => x.id != d.id)) ds := by
      rfl
    rw [h1, ih, List.filter_filter]
    apply List.filter_congr
    intro a _
    by_cases h2 : a.id = d.id <;> by_cases h3 : a.id ∈ ds.map CachedDoc.id <;>
      simp [h2, h3]

/-- Deleting every queried document of a store that is fully covered empties
it. -/
theorem deleteAll_cover (store cover : List CachedDoc)
    (h : ∀ x ∈ store, x.id ∈ cover.map CachedDoc.id) : deleteAll store cover = [] := by
  rw [deleteAll_filter]
  apply List.filter_eq_nil_iff.mpr
  intro a ha
  simp [h a ha]

/-- Deleting a store's own documents empties it. -/
theorem deleteAll_self (store : List CachedDoc) : deleteAll store store = [] :=
  deleteAll_cover store store (fun _ hx => List.mem_map_of_mem CachedDoc.id hx)

/-- The create loop appends exactly `createdList` and bumps the fresh id by
the number of non-null results, whatever the accumulators hold. -/
theorem createJobs_foldl (now : Int) (results : List (Option (GHJobDetails × GHListJob))) :
    ∀ (st : List CachedDoc) (nid : Nat) (ps : List CachedDoc),
      results.foldl (createStep now) (st, nid, ps) =
        (st ++ createdList now nid results, nid + (results.filterMap id).length,
          ps ++ createdList now nid results) := by
  induction results with
  | nil =>
    intro st nid ps
    simp [createdList]
  | cons r rest ih =>
    intro st nid ps
    match r with
    | none =>
      rw [List.foldl_cons]
      show rest.foldl (createStep now) (st, nid, ps) = _
      rw [ih]
      simp [createdList]
    | some (details, job) =>
      rw [List.foldl_cons]
      show rest.foldl (createStep now)
        (st ++ [mkCachedDoc nid now job details], nid + 1,
          ps ++ [mkCachedDoc nid now job details]) = _
      rw [ih]
      simp [createdList, List.append_assoc]
      omega

/-- `createJobs` in terms of `createdList`. -/
theorem createJobs_eq (now : Int) (results : List (Option (GHJobDetails × GHListJob)))
    (store : List CachedDoc) (nextId : Nat) :
    createJobs now results store nextId =
      (store ++ createdList now nextId results, nextId + (results.filterMap id).length,
        createdList now nextId results) := by
  rw [createJobs, createJobs_foldl]
  simp

/-- The job ids of the created documents are the job ids of the non-null
results. -/
theorem createdList_map_jobId (now : Int) :
    ∀ (nid : Nat) (results : List (Option (GHJobDetails × GHListJob))),
      (createdList now nid results).map CachedDoc.jobId =
        (results.filterMap id).map (fun r => r.2.id) := by
  intro nid results
  induction results generalizing nid with
  | nil => simp [createdList]
  | cons r rest ih =>
    match r with
    | none => simp [createdList, ih]
    | some (details, job) => simp [createdList, ih, mkCachedDoc]

/-- The non-null detail results are exactly the jobs whose detail fetch
succeeded, in order, as witnessed by their job ids. -/
theorem detailResults_ids (env : JobsEnv) (jobs : List GHListJob) :
    ((detailResults env jobs).filterMap id).map (fun r => r.2.id) =
      (jobs.filter (detailOk env)).map GHListJob.id := by
  induction jobs with
  | nil => simp [detailResults]
  | cons j js ih =>
    have hd : detailResults env (j :: js) =
        (match env.detailFetch j.id with
          | DetailFetch.ok details => some (details, j)
          | DetailFetch.httpErr _ => none
          | DetailFetch.thrown => none) :: detailResults env js := by
      rfl
    rw [hd]
    cases h : env.detailFetch j.id <;>
      simp [detailOk, h, ih, List.filter_cons]

/-- C4: when the store holds at most the 1000 documents the handler queries,
a sync completes with exactly the jobs whose detail fetch succeeded — both in
the resulting store and in the returned `processedJobs` — while jobs whose
detail fetch failed (non-2xx or thrown) are skipped, not fatal. -/
theorem c4_partial_detail_failure (env : JobsEnv) (store : List CachedDoc) (nextId : Nat)
    (h : store.length ≤ 1000) :
    ((syncOutcome env store nextId).1).map CachedDoc.jobId =
      ((listJobsOf env).filter (detailOk env)).map GHListJob.id ∧
    ((syncOutcome env store nextId).2.2).map CachedDoc.jobId =
      ((listJobsOf env).filter (detailOk env)).map GHListJob.id := by
  have htake : store.take 1000 = store := List.take_of_length_le h
  have hdel : deleteAll store (store.take 1000) = [] := by
    rw [htake]
    exact deleteAll_self store
  rw [syncOutcome, hdel, createJobs_eq]
  constructor
  · simp only [List.nil_append]
    rw [createdList_map_jobId]
    exact detailResults_ids env (listJobsOf env)
  · simp only []
    rw [createdList_map_jobId]
    exact detailResults_ids env (listJobsOf env)

/-- C4 witness: three jobs with the middle detail fetch throwing a network
error — the sync caches the two surviving jobs, not zero. -/
theorem c4_witness :
    ((syncOutcome c4Env [] 0).1).map CachedDoc.jobId = [1, 3] ∧
    ((syncOutcome c4Env [] 0).2.2).map CachedDoc.jobId = [1, 3] ∧
    ((syncOutcome c4Env [] 0).1).length = 2 := by
  have h := c4_partial_detail_failure c4Env [] 0 (by decide)
  have h1 : ((syncOutcome c4Env [] 0).1).map CachedDoc.jobId = [1, 3] := h.1.trans (by decide)
  have h2 : ((syncOutcome c4Env [] 0).2.2).map CachedDoc.jobId = [1, 3] := h.2.trans (by decide)
  refine ⟨h1, h2, ?_⟩
  have := congrArg List.length h1
  simpa using this

/-- The store component of a clear-cache result. -/
theorem clearCache_store (store : List CachedDoc) :
    (greenhouseClearCacheHandler store).store = deleteAll store (store.take 1000) :=
  rfl

/-- The reported count of a clear-cache result. -/
theorem clearCache_removed (store : List CachedDoc) :
    (greenhouseClearCacheHandler store).jobsRemoved = (store.take 1000).length :=
  rfl

/-- C5 counterexample: with 1001 cached documents, clear-cache removes only
the 1000 documents of its limited query, reports 1000, leaves one document
behind, and a second immediate call reports 1 rather than 0. -/
theorem c5_clear_cache_misses_docs :
    bigStore.length = 1001 ∧
    (greenhouseClearCacheHandler bigStore).jobsRemoved = 1000 ∧
    (greenhouseClearCacheHandler bigStore).store = [simpleDoc 1000 1000 0] ∧
    (greenhouseClearCacheHandler (greenhouseClearCacheHandler bigStore).store).jobsRemoved = 1 := by
  have hlen : bigStore.length = 1001 := by simp [bigStore]
  have htake : bigStore.take 1000 = (List.range 1000).map (fun i => simpleDoc i i 0) := by
    rw [bigStore, ← List.map_take, List.take_range]
    norm_num
  have hids : ((List.range 1000).map (fun i => simpleDoc i i 0)).map CachedDoc.id =
      List.range 1000 := by
    rw [List.map_map]
    have hcomp : (CachedDoc.id ∘ fun i => simpleDoc i i 0) = fun i => i := by
      funext i
      rfl
    rw [hcomp, List.map_id']
  have hstore : (greenhouseClearCacheHandler bigStore).store = [simpleDoc 1000 1000 0] := by
    rw [clearCache_store]
    rw [deleteAll_filter, htake, hids, bigStore,
      show List.range 1001 = List.range 1000 ++ [1000] by
        rw [show (1001 : Nat) = Nat.succ 1000 from rfl, List.range_succ],
      List.map_append, List.filter_append]
    have h1 : ((List.range 1000).map (fun i => simpleDoc i i 0)).filter
        (fun x => decide (x.id ∉ List.range 1000)) = [] := by
      apply List.filter_eq_nil_iff.mpr
      intro a ha
      rcases List.mem_map.mp ha with ⟨i, hi, rfl⟩
      simp [simpleDoc, hi]
    have h2 : ([1000].map (fun i => simpleDoc i i 0)).filter
        (fun x => decide (x.id ∉ List.range 1000)) = [simpleDoc 1000 1000 0] := by
      simp [simpleDoc, List.mem_range]
    rw [h1, h2]
    simp
  refine ⟨hlen, ?_, hstore, ?_⟩
  · rw [clearCache_removed, htake]
    simp
  · rw [hstore]
    rfl

/-- C5 (amended): whenever at most 1000 documents are cached (the handler's
query limit), clear-cache removes every cached document, reports the exact
count removed, and an immediate second call reports 0; the
environment-variable variant is a no-op always reporting 0. -/
theorem c5_clear_cache_bounded (store : List CachedDoc) (h : store.length ≤ 1000) :
    (greenhouseClearCacheHandler store).jobsRemoved = store.length ∧
    (greenhouseClearCacheHandler store).store = [] ∧
    (greenhouseClearCacheHandler (greenhouseClearCacheHandler store).store).jobsRemoved = 0 ∧
    greenhouseClearCacheHandlerEnv.jobsRemoved = 0 := by
  have htake : store.take 1000 = store := List.take_of_length_le h
  have hstore : (greenhouseClearCacheHandler store).store = [] := by
    rw [clearCache_store, htake]
    exact deleteAll_self store
  refine ⟨?_, hstore, ?_, rfl⟩
  · rw [clearCache_removed, htake]
  · rw [hstore]
    rfl

/-- C5 witness: a two-document store is fully cleared, the call reports 2,
and the second call reports 0. -/
theorem c5_witness :
    (greenhouseClearCacheHandler twoStore).jobsRemoved = 2 ∧
    (greenhouseClearCacheHandler twoStore).store = [] ∧
    (greenhouseClearCacheHandler (greenhouseClearCacheHandler twoStore).store).jobsRemoved = 0 := by
  have h := c5_clear_cache_bounded twoStore (by decide)
  exact ⟨h.1.trans (by decide), h.2.1, h.2.2.1⟩

/-! ## The jobs handler: cache-or-refresh behaviour -/

/-- C2 counterexample: the store `c2Store` holds a stale first document and a
fresh second document; at time `now` the age against the **newest** cached
`updatedAt` is 0 seconds, well within the default 3600-second expiry, and the
URL carries no `refresh=true`, yet the handler contacts the external API and
does not return the cached set — because the source computes the age from
`docs[0]`, the first queried document, not the newest one. -/
theorem c2_counterexample :
    c2Store ≠ [] ∧
    hasRefreshTrue c2Env.url = false ∧
    c2Env.now - specNewestUpdatedAt c2Store ≤ (3600 : Int) * 1000 ∧
    cacheTimeOf c2Env tokSettings = 3600 ∧
    c2Env.settings = some tokSettings ∧
    (greenhouseJobsHandler c2Env c2Store 100).calledListApi = true ∧
    (greenhouseJobsHandler c2Env c2Store 100).body ≠ JobsBody.cachedDocs c2Store := by
  refine ⟨by decide, by decide, by decide, by decide, rfl, by decide, by decide⟩

/-- C2 (amended): with a configured URL token and no `refresh=true` in the
URL, the handler returns the queried cached documents unchanged — leaving the
store untouched and never contacting the external API — exactly when cached
documents exist and `now` minus the **first** queried document's `updatedAt`
is at most the configured expiry in seconds; otherwise it contacts the
external API and, when the list fetch succeeds, returns the freshly synced
set, with the store replaced by it. -/
theorem c2_cache_or_refresh (env : JobsEnv) (store : List CachedDoc) (nextId : Nat)
    (s : GHSettingsDoc) (hs : env.settings = some s) (htok : jsStr s.urlToken = true)
    (hnr : hasRefreshTrue env.url = false) :
    (store.take 1000 ≠ [] →
      env.now - cacheLastUpdated (store.take 1000) ≤ (cacheTimeOf env s : Int) * 1000 →
      greenhouseJobsHandler env store nextId =
        ⟨200, JobsBody.cachedDocs (store.take 1000), store, nextId, false⟩) ∧
    ((store.take 1000 = [] ∨
        env.now - cacheLastUpdated (store.take 1000) > (cacheTimeOf env s : Int) * 1000) →
      (greenhouseJobsHandler env store nextId).calledListApi = true ∧
      (∀ jf, env.listFetch = ListFetch.ok jf →
        greenhouseJobsHandler env store nextId =
          ⟨200, JobsBody.processed (syncOutcome env store nextId).2.2,
            (syncOutcome env store nextId).1, (syncOutcome env store nextId).2.1, true⟩)) := by
  constructor
  · intro hne hage
    have hlen : ((store.take 1000).length > 0) := List.length_pos.mpr hne
    have hexp : ¬ (env.now - cacheLastUpdated (store.take 1000) >
        (cacheTimeOf env s : Int) * 1000) := not_lt.mpr hage
    have hsne : store ≠ [] := by
      intro hc
      rw [hc] at hne
      exact hne rfl
    rw [greenhouseJobsHandler, hs]
    simp [htok, hlen, hexp, hnr, hsne]
  · intro hmiss
    rw [greenhouseJobsHandler, hs]
    constructor
    · cases hfetch : env.listFetch with
      | err status =>
        rcases hmiss with hempty | hage
        · simp [htok, hempty, hfetch]
        · simp [htok, hage, hfetch]
      | ok jf =>
        rcases hmiss with hempty | hage
        · simp [htok, hempty, hfetch]
        · simp [htok, hage, hfetch]
    · intro jf hfetch
      rcases hmiss with hempty | hage
      · simp [htok, hempty, hfetch]
      · simp [htok, hage, hfetch]

/-- C2 witness: a fresh one-document cache and no refresh parameter — the
handler returns the cached set, leaves the store alone and never calls the
external API. -/
theorem c2_witness :
    greenhouseJobsHandler c2wEnv freshStore 7 =
      ⟨200, JobsBody.cachedDocs (freshStore.take 1000), freshStore, 7, false⟩ :=
  (c2_cache_or_refresh c2wEnv freshStore 7 tokSettings rfl (by decide) (by decide)).1
    (by decide) (by decide)

/-- C3: with a configured URL token, a request whose URL contains
`refresh=true` always reaches the external API — whatever the age of the
cached set — and on a successful list fetch returns the freshly synced
set. -/
theorem c3_refresh_forces_sync (env : JobsEnv) (store : List CachedDoc) (nextId : Nat)
    (s : GHSettingsDoc) (hs : env.settings = some s) (htok : jsStr s.urlToken = true)
    (hr : hasRefreshTrue env.url = true) :
    (greenhouseJobsHandler env store nextId).calledListApi = true ∧
    (∀ jf, env.listFetch = ListFetch.ok jf →
      greenhouseJobsHandler env store nextId =
        ⟨200, JobsBody.processed (syncOutcome env store nextId).2.2,
          (syncOutcome env store nextId).1, (syncOutcome env store nextId).2.1, true⟩) := by
  rw [greenhouseJobsHandler, hs]
  constructor
  · cases hfetch : env.listFetch with
    | err status => simp [htok, hr, hfetch]
    | ok jf => simp [htok, hr, hfetch]
  · intro jf hfetch
    simp [htok, hr, hfetch]

/-- C3 witness: a non-expired one-document cache together with
`refresh=true` in the URL — the handler still contacts the external API and
returns the synced set. -/
theorem c3_witness :
    c3wEnv.now - cacheLastUpdated (freshStore.take 1000) ≤
      (cacheTimeOf c3wEnv tokSettings : Int) * 1000 ∧
    (greenhouseJobsHandler c3wEnv freshStore 7).calledListApi = true ∧
    greenhouseJobsHandler c3wEnv freshStore 7 =
      ⟨200, JobsBody.processed (syncOutcome c3wEnv freshStore 7).2.2,
        (syncOutcome c3wEnv freshStore 7).1, (syncOutcome c3wEnv freshStore 7).2.1, true⟩ := by
  have h := c3_refresh_forces_sync c3wEnv freshStore 7 tokSettings rfl (by decide) (by decide)
  exact ⟨by decide, h.1, h.2 (some []) rfl⟩

/-! ## The apply handler -/

/-- Reduction of the apply handler when no settings document exists. -/
theorem applyHandler_none (env : ApplyEnv) (hset : env.settings = none) :
    greenhouseApplyHandler env = ⟨400, false, none⟩ := by
  rw [greenhouseApplyHandler, hset]

/-- Reduction of the apply handler under a known settings document. -/
theorem applyHandler_some (env : ApplyEnv) (s : GHSettingsDoc) (hset : env.settings = some s) :
    greenhouseApplyHandler env =
      (if jsStr s.apiKey then
        match env.body with
        | ApplyBody.parseError => ⟨500, false, none⟩
        | ApplyBody.okBody jobId formData =>
          if !jsNum jobId || !jsStr formData then ⟨400, false, none⟩
          else
            match env.postResult with
            | PostResult.thrown => ⟨500, true, some (getGreenhouseHeaders s.apiKey)⟩
            | PostResult.resp ok status =>
              if ok then ⟨200, true, some (getGreenhouseHeaders s.apiKey)⟩
              else ⟨status, true, some (getGreenhouseHeaders s.apiKey)⟩
      else ⟨400, false, none⟩) := by
  rw [greenhouseApplyHandler, hset]

/-- C6: the apply handler returns 400 without contacting the write API when
no settings document exists, when the configured API key is absent (or
empty, which JavaScript treats the same), or when the parsed body lacks a
truthy `jobId` or `formData`; and the write API is contacted exactly when the
key is configured and both body fields are present. -/
theorem c6_apply_validation (env : ApplyEnv) :
    (env.settings = none → greenhouseApplyHandler env = ⟨400, false, none⟩) ∧
    (∀ s, env.settings = some s → jsStr s.apiKey = false →
      greenhouseApplyHandler env = ⟨400, false, none⟩) ∧
    (∀ s jobId formData, env.settings = some s → jsStr s.apiKey = true →
      env.body = ApplyBody.okBody jobId formData →
      (jsNum jobId = false ∨ jsStr formData = false) →
      greenhouseApplyHandler env = ⟨400, false, none⟩) ∧
    ((greenhouseApplyHandler env).calledApi = true ↔
      (∃ s jobId formData, env.settings = some s ∧ jsStr s.apiKey = true ∧
        env.body = ApplyBody.okBody jobId formData ∧ jsNum jobId = true ∧
        jsStr formData = true)) := by
  refine ⟨?_, ?_, ?_, ?_⟩
  · intro h
    exact applyHandler_none env h
  · intro s h hk
    rw [applyHandler_some env s h]
    simp [hk]
  · intro s jobId formData h hk hb hbad
    rw [applyHandler_some env s h, hb]
    rcases hbad with hb2 | hb2 <;> simp [hk, hb2]
  · constructor
    · intro h
      cases hset : env.settings with
      | none =>
        rw [applyHandler_none env hset] at h
        simp at h
      | some s =>
        rw [applyHandler_some env s hset] at h
        by_cases hk : jsStr s.apiKey
        · rw [if_pos hk] at h
          cases hbody : env.body with
          | parseError =>
            rw [hbody] at h
            simp at h
          | okBody jobId formData =>
            rw [hbody] at h
            by_cases hj : jsNum jobId
            · by_cases hf : jsStr formData
              · exact ⟨s, jobId, formData, rfl, hk, rfl, hj, hf⟩
              · simp [hj, hf] at h
            · simp [hj] at h
        · rw [if_neg hk] at h
          simp at h
    · rintro ⟨s, jobId, formData, hset, hk, hbody, hj, hf⟩
      rw [applyHandler_some env s hset, hbody]
      cases hpost : env.postResult with
      | thrown => simp [hk, hj, hf]
      | resp ok status => cases ok <;> simp [hk, hj, hf]

/-- C6 witness: with no API key the handler answers 400 without contacting
the write API, and with a key and a complete body it contacts it. -/
theorem c6_witness :
    greenhouseApplyHandler c6NoKeyEnv = ⟨400, false, none⟩ ∧
    (greenhouseApplyHandler c6OkEnv).calledApi = true := by
  refine ⟨(c6_apply_validation c6NoKeyEnv).2.1 tokSettings rfl (by decide), ?_⟩
  exact (c6_apply_validation c6OkEnv).2.2.2.mpr
    ⟨⟨some "key", none, some "tok"⟩, some 5, some "form", rfl, by decide, rfl, by decide,
      by decide⟩

/-- C9: for a non-empty API key the headers carry
`Authorization: Basic base64(key + ':')` (key as username, empty password);
without a key no Authorization header is present; and whenever the apply
handler contacts the write API it sends exactly
`getGreenhouseHeaders settings.apiKey`. -/
theorem c9_basic_auth (key : String) (hk : key ≠ "") :
    (getGreenhouseHeaders (some key)).lookup "Authorization" =
      some ("Basic " ++ base64OfString (key ++ ":")) ∧
    (getGreenhouseHeaders none).lookup "Authorization" = none ∧
    (∀ env : ApplyEnv, ∀ s : GHSettingsDoc, env.settings = some s →
      (greenhouseApplyHandler env).calledApi = true →
      (greenhouseApplyHandler env).sentHeaders = some (getGreenhouseHeaders s.apiKey)) := by
  refine ⟨?_, rfl, ?_⟩
  · have hks : jsStr (some key) = true := by
      simp [jsStr]
      exact hk
    simp only [getGreenhouseHeaders, hks, if_true]
    rfl
  · intro env s hset hcalled
    rw [applyHandler_some env s hset] at hcalled ⊢
    by_cases hk2 : jsStr s.apiKey
    · cases hbody : env.body with
      | parseError =>
        rw [hbody] at hcalled
        simp [hk2] at hcalled
      | okBody jobId formData =>
        rw [hbody] at hcalled
        by_cases hj : jsNum jobId
        · by_cases hf : jsStr formData
          · cases hpost : env.postResult with
            | thrown => simp [hk2, hj, hf, hbody, hpost]
            | resp ok status => cases ok <;> simp [hk2, hj, hf, hbody, hpost]
          · simp [hk2, hj, hf] at hcalled
        · simp [hk2, hj] at hcalled
    · simp [hk2] at hcalled

/-- C9 witness: for the key `abc` the header value is
`Basic YWJjOg==` (the base64 of `abc:`), and with no key there is no
Authorization header. -/
theorem c9_witness :
    (getGreenhouseHeaders (some "abc")).lookup "Authorization" = some "Basic YWJjOg==" ∧
    (getGreenhouseHeaders none).lookup "Authorization" = none := by
  have h := c9_basic_auth "abc" (by decide)
  exact ⟨h.1.trans (by decide), h.2.1⟩

/-! ## The dashboard widget -/

/-- C8 counterexample: the first widget variant renders `jobs.slice(0, 10)`
in the order given — on a two-job list sorted oldest-first the rows are not
in descending update order — while the second variant sorts descending but
renders all rows: an eleven-job list yields eleven rows, not ten.  Neither
variant both bounds the table to ten rows and sorts it. -/
theorem c8_counterexample :
    recentJobsRowsV1 c8Jobs = [c8JobA, c8JobB] ∧
    ¬ List.Pairwise jobLatest (recentJobsRowsV1 c8Jobs) ∧
    (allJobsRowsV2 c8Eleven).length = 11 := by
  refine ⟨by decide, ?_, by decide⟩
  intro h
  rw [show recentJobsRowsV1 c8Jobs = [c8JobA, c8JobB] from by decide] at h
  rw [List.pairwise_cons] at h
  have := h.1 c8JobB (by simp)
  rw [jobLatest] at this
  simp [c8JobA, c8JobB] at this

/-- C8 (amended): the two widget variants split the claimed behaviour — the
first renders exactly the first ten jobs in the given order (hence at most
ten rows, unsorted), the second renders a permutation of **all** the jobs
sorted by descending update timestamp (hence unbounded). -/
theorem c8_dashboard_variants (jobs : List DashJob) :
    recentJobsRowsV1 jobs = jobs.take 10 ∧
    (recentJobsRowsV1 jobs).length ≤ 10 ∧
    List.Sorted jobLatest (allJobsRowsV2 jobs) ∧
    (allJobsRowsV2 jobs).Perm jobs := by
  refine ⟨rfl, ?_, List.sorted_insertionSort jobLatest jobs,
    List.perm_insertionSort jobLatest jobs⟩
  simp [recentJobsRowsV1]

/-! ## Document-object lemmas for the hook -/

/-- Looking up the replaced key after a value-replacing map. -/
theorem lookup_map_replace (k : String) (v : JVal) : ∀ obj : JObj,
    (obj.map (fun p => if p.1 = k then (p.1, v) else p)).lookup k =
      (obj.lookup k).map (fun _ => v) := by
  intro obj
  induction obj with
  | nil => rfl
  | cons p ps ih =>
    simp only [List.map_cons]
    by_cases h : p.1 = k
    · rw [if_pos h]
      have hbt : (k == p.1) = true := beq_iff_eq.mpr h.symm
      simp [List.lookup, hbt]
    · rw [if_neg h]
      have hb : (k == p.1) = false := beq_eq_false_iff_ne.mpr (fun hc => h hc.symm)
      simp [List.lookup, hb, ih]

/-- Looking up a different key after a value-replacing map. -/
theorem lookup_map_replace_ne (k k' : String) (v : JVal) (hne : k' ≠ k) : ∀ obj : JObj,
    (obj.map (fun p => if p.1 = k then (p.1, v) else p)).lookup k' = obj.lookup k' := by
  intro obj
  induction obj with
  | nil => rfl
  | cons p ps ih =>
    simp only [List.map_cons]
    by_cases h : p.1 = k
    · rw [if_pos h]
      have hb : (k' == p.1) = false := beq_eq_false_iff_ne.mpr (fun hc => hne (hc.trans h))
      simp [List.lookup, hb, ih]
    · rw [if_neg h]
      by_cases h2 : k' = p.1
      · have hbt : (k' == p.1) = true := beq_iff_eq.mpr h2
        simp [List.lookup, hbt]
      · have hb : (k' == p.1) = false := beq_eq_false_iff_ne.mpr h2
        simp [List.lookup, hb, ih]

/-- Lookup distributes over append, preferring the left list. -/
theorem lookup_append_jobj (k : String) : ∀ l1 l2 : JObj,
    (l1 ++ l2).lookup k =
      match l1.lookup k with
      | some v => some v
      | none => l2.lookup k := by
  intro l1 l2
  induction l1 with
  | nil => rfl
  | cons p ps ih =>
    by_cases h : k = p.1
    · simp [List.lookup, h]
    · have hb : (k == p.1) = false := beq_eq_false_iff_ne.mpr h
      simp [List.lookup, hb, ih]

/-- After `obj[k] = v`, looking up `k` yields `v`. -/
theorem lookup_setKey_self (obj : JObj) (k : String) (v : JVal) :
    (setKey obj k v).lookup k = some v := by
  rw [setKey]
  by_cases h : (obj.lookup k).isSome
  · rw [if_pos h, lookup_map_replace]
    rcases Option.isSome_iff_exists.mp h with ⟨w, hw⟩
    rw [hw]
    rfl
  · rw [if_neg h, lookup_append_jobj]
    have hnone : obj.lookup k = none := Option.not_isSome_iff_eq_none.mp h
    rw [hnone]
    simp [List.lookup]

/-- After `obj[k] = v`, every other key reads as before. -/
theorem lookup_setKey_ne (obj : JObj) (k k' : String) (v : JVal) (hne : k' ≠ k) :
    (setKey obj k v).lookup k' = obj.lookup k' := by
  rw [setKey]
  by_cases h : (obj.lookup k).isSome
  · rw [if_pos h, lookup_map_replace_ne k k' v hne]
  · rw [if_neg h, lookup_append_jobj]
    have hb : (k' == k) = false := beq_eq_false_iff_ne.mpr hne
    cases hl : obj.lookup k' with
    | some w => rfl
    | none => simp [List.lookup, hb]

/-- Lookup through the preserve loop: keys absent from `data` stay absent,
keys present in `data` read the original value when it is defined there and
the submitted value otherwise. -/
theorem lookup_preserveOriginal (od : JObj) (k : String) : ∀ data : JObj,
    (preserveOriginal od data).lookup k =
      match data.lookup k, od.lookup k with
      | none, _ => none
      | some v, none => some v
      | some _, some w => some w := by
  intro data
  induction data with
  | nil => rfl
  | cons p ps ih =>
    by_cases h : k = p.1
    · cases hod : od.lookup p.1 with
      | some w => simp [preserveOriginal, List.lookup, h, hod]
      | none => simp [preserveOriginal, List.lookup, h, hod]
    · have hb : (k == p.1) = false := beq_eq_false_iff_ne.mpr h
      cases hod : od.lookup p.1 with
      | some w => simpa [preserveOriginal, List.lookup, hod, hb] using ih
      | none => simpa [preserveOriginal, List.lookup, hod, hb] using ih

/-- When the submitted `jobId` is falsy or strictly equal to the original
document's, the enrichment branch is skipped. -/
theorem enrichStep_skip (env : HookEnv) (originalDoc data : JObj)
    (hjid : jvTruthy (data.lookup "jobId") = false ∨
      data.lookup "jobId" = originalDoc.lookup "jobId") :
    enrichStep env Op.update (some originalDoc) data = Except.ok data := by
  rw [enrichStep]
  rcases hjid with h | h
  · simp [h]
  · simp [h]

/-- Reduction of the hook on such an update: preserve loop then `updatedAt`
stamp. -/
theorem beforeChangeHook_update (env : HookEnv) (originalDoc data : JObj)
    (hjid : jvTruthy (data.lookup "jobId") = false ∨
      data.lookup "jobId" = originalDoc.lookup "jobId") :
    beforeChangeHook env Op.update (some originalDoc) data =
      Except.ok (setKey (preserveOriginal originalDoc data) "updatedAt"
        (JVal.str env.nowIso)) := by
  rw [beforeChangeHook, enrichStep_skip env originalDoc data hjid]
  rfl

/-- C10 counterexample: an update (with an existing original document) that
changes `jobId` from 1 to 2 while the upstream job fetch answers 404 makes
the hook **throw** (`Job ID 2 not found`), rather than overwrite the data and
stamp `updatedAt` as the claim demands for every update invocation. -/
theorem c10_counterexample :
    beforeChangeHook c10Env404 Op.update (some c10Orig) c10Data =
      Except.error (HookError.jobNotFound 2) := by
  rfl

/-- C10 (amended): on an update with an existing original document, provided
the submitted `jobId` is falsy or strictly equal to the original's (otherwise
the enrichment branch runs and may throw), the hook succeeds, stamps
`updatedAt` with the current time, and overwrites every submitted key whose
value is defined in the original document with the original value; hence when
every submitted key is defined in the original, merging the returned data
over the original changes nothing but `updatedAt`. -/
theorem c10_update_preserves_fields (env : HookEnv) (originalDoc data : JObj)
    (hjid : jvTruthy (data.lookup "jobId") = false ∨
      data.lookup "jobId" = originalDoc.lookup "jobId") :
    ∃ out, beforeChangeHook env Op.update (some originalDoc) data = Except.ok out ∧
      out.lookup "updatedAt" = some (JVal.str env.nowIso) ∧
      (∀ k v, k ≠ "updatedAt" → originalDoc.lookup k = some v →
        (data.lookup k).isSome → out.lookup k = some v) ∧
      ((∀ k, (data.lookup k).isSome → (originalDoc.lookup k).isSome) →
        ∀ k, k ≠ "updatedAt" →
          Option.orElse (out.lookup k) (fun _ => originalDoc.lookup k) =
            originalDoc.lookup k) := by
  refine ⟨setKey (preserveOriginal originalDoc data) "updatedAt" (JVal.str env.nowIso),
    beforeChangeHook_update env originalDoc data hjid, lookup_setKey_self _ _ _, ?_, ?_⟩
  · intro k v hk hov hds
    rw [lookup_setKey_ne _ _ _ _ hk, lookup_preserveOriginal]
    rcases Option.isSome_iff_exists.mp hds with ⟨u, hu⟩
    rw [hu, hov]
  · intro hkeys k hk
    rw [lookup_setKey_ne _ _ _ _ hk, lookup_preserveOriginal]
    cases hd : data.lookup k with
    | none => cases ho : originalDoc.lookup k <;> rfl
    | some u =>
      have hos : (originalDoc.lookup k).isSome := hkeys k (by rw [hd]; rfl)
      rcases Option.isSome_iff_exists.mp hos with ⟨w, hw⟩
      rw [hw]
      rfl

/-- C10 witness: an update keeping `jobId = 5` but submitting an edited
title — the hook succeeds, keeps the original title, and stamps
`updatedAt`. -/
theorem c10_witness :
    ∃ out, beforeChangeHook c10wEnv Op.update (some c10wOrig) c10wData = Except.ok out ∧
      out.lookup "updatedAt" = some (JVal.str "2024-02-02T00:00:00.000Z") ∧
      (∀ k v, k ≠ "updatedAt" → c10wOrig.lookup k = some v →
        (c10wData.lookup k).isSome → out.lookup k = some v) ∧
      ((∀ k, (c10wData.lookup k).isSome → (c10wOrig.lookup k).isSome) →
        ∀ k, k ≠ "updatedAt" →
          Option.orElse (out.lookup k) (fun _ => c10wOrig.lookup k) =
            c10wOrig.lookup k) :=
  c10_update_preserves_fields c10wEnv c10wOrig c10wData (Or.inr rfl)
